import Mathlib

/-
  Verification of the voila geospatial point selection engine.

  Shallow embedding of:
  - the spatial worker containment tests (frontend/src/workers/spatialWorker.ts),
  - the selection and map Redux slices (store/slices),
  - the deterministic region coloring module (frontend/src/utils/stateColors.ts),
  - the camera pan, zoom and unprojection math of the useThreeScene hook
    (frontend/src/hooks/useThreeJS.ts), including the three.js orthographic
    camera transform it relies on.

  JavaScript numbers are modelled as exact rationals where all code paths stay
  in rational arithmetic, and as real numbers where square roots occur.
-/

namespace Voila

/-! ### Spatial worker (spatialWorker.ts) -/

/-- A 2D point as passed to the worker geometry tests. -/
structure Point2D where
  x : ℚ
  y : ℚ
deriving DecidableEq

/-- A projected company point: ticker plus world coordinates on the ground
plane (points lie in the x/z plane; y is the constant height). -/
structure CompanyPoint where
  ticker : String
  x : ℚ
  y : ℚ
  z : ℚ
deriving DecidableEq

/-- SpatialOperations.selectInRectangle: keeps the companies whose x lies in
[min.x, max.x] and whose z lies in [min.y, max.y], all bounds inclusive,
preserving input order. -/
def selectInRectangle (min max : Point2D) (allCoords : List CompanyPoint) :
    List CompanyPoint :=
  allCoords.filter fun company =>
    decide (min.x ≤ company.x ∧ company.x ≤ max.x ∧
            min.y ≤ company.z ∧ company.z ≤ max.y)

/-- SpatialOperations.selectInCircle: squared distance from (x, z) to the
center compared against radius * radius, boundary inclusive. -/
def selectInCircle (center : Point2D) (radius : ℚ) (allCoords : List CompanyPoint) :
    List CompanyPoint :=
  let radiusSq := radius * radius
  allCoords.filter fun company =>
    let dx := company.x - center.x
    let dz := company.z - center.y
    decide (dx * dx + dz * dz ≤ radiusSq)

/-- SpatialOperations.isPointInPolygon: even-odd ray casting. The loop runs i
over all indices with j the previous index (wrapping to the last vertex for
i = 0); the parity flips whenever the edge (j, i) straddles the horizontal
line through the point and the crossing lies strictly to the right of it.
Indices are always in range, so the getD defaults are never read. -/
def isPointInPolygon (point : Point2D) (polygon : List Point2D) : Bool :=
  (List.range polygon.length).foldl
    (fun inside i =>
      let j := if i = 0 then polygon.length - 1 else i - 1
      let pti := polygon.getD i ⟨0, 0⟩
      let ptj := polygon.getD j ⟨0, 0⟩
      let intersect :=
        (decide (pti.y > point.y) != decide (ptj.y > point.y)) &&
          decide (point.x < (ptj.x - pti.x) * (point.y - pti.y) / (ptj.y - pti.y) + pti.x)
      if intersect then !inside else inside)
    false

/-- SpatialOperations.selectInPolygon: degenerate polygons (fewer than three
vertices) select nothing; otherwise each company is tested with its (x, z)
coordinates against the polygon. -/
def selectInPolygon (polygonPoints : List Point2D) (allCoords : List CompanyPoint) :
    List CompanyPoint :=
  if polygonPoints.length < 3 then []
  else
    allCoords.filter fun company =>
      isPointInPolygon ⟨company.x, company.z⟩ polygonPoints

/-- SpatialWorkerManager.selectInCircle: forwards to the worker when it is
available; when the worker failed to initialize (or the call throws) the
query degrades to an empty result instead of raising. -/
def managerSelectInCircle (workerAvailable : Bool) (center : Point2D) (radius : ℚ)
    (allCoords : List CompanyPoint) : List CompanyPoint :=
  if workerAvailable then selectInCircle center radius allCoords else []

/-! ### Selection geometry and state types (types/state.ts) -/

/-- The selection mode union type. -/
inductive SelectionMode where
  | pan
  | rect
  | circle
  | polygon
  | lasso
  | state
deriving DecidableEq

/-- Entry of RegionalStats.top_companies. -/
structure TopCompany where
  ticker : String
  name : String
  latest_close : ℚ
  sector : String
deriving DecidableEq

/-- RegionalStats from types/api.ts; optional fields are Option. -/
structure RegionalStats where
  region_description : String
  company_count : ℚ
  avg_price : Option ℚ
  total_volume : Option ℚ
  top_companies : Option (List TopCompany)
deriving DecidableEq

/-- BoundingBox from types/state.ts. -/
structure BoundingBox where
  minX : ℚ
  maxX : ℚ
  minY : ℚ
  maxY : ℚ
deriving DecidableEq

/-- SelectionGeometry: a record with a mode tag and optional per-mode fields. -/
structure SelectionGeometry where
  type : SelectionMode
  bounds : Option BoundingBox := none
  center : Option Point2D := none
  radius : Option ℚ := none
  points : Option (List Point2D) := none
  state : Option String := none
  start : Option Point2D := none
  current : Option Point2D := none
deriving DecidableEq

/-- SelectionHistoryEntry from types/state.ts. -/
structure SelectionHistoryEntry where
  id : String
  timestamp : ℤ
  companyIds : List String
  stats : RegionalStats
  mode : SelectionMode
  geometry : SelectionGeometry
deriving DecidableEq

/-- SelectionState from types/state.ts. The JS Set of selected tickers is
modelled as its list of members in insertion order. -/
structure SelectionState where
  selectedCompanies : List String
  selectionStats : Option RegionalStats
  selectionHistory : List SelectionHistoryEntry
  isSelecting : Bool
  selectionMode : SelectionMode

/-- The JS Set constructor applied to a list: members in first-occurrence
order, duplicates dropped. -/
def jsSet (xs : List String) : List String :=
  xs.foldl (fun acc a => if a ∈ acc then acc else acc ++ [a]) []

/-- initialState of selectionSlice.ts. -/
def initialSelectionState : SelectionState :=
  { selectedCompanies := []
    selectionStats := none
    selectionHistory := []
    isSelecting := false
    selectionMode := SelectionMode.pan }

/-! ### selectionSlice reducers touching the history -/

/-- addToSelectionHistory: builds an entry whose id embeds Date.now() (passed
here explicitly as `now`), unshifts it onto the history, and truncates to the
first 50 entries when the length exceeds 50. -/
def addToSelectionHistory (s : SelectionState) (now : ℤ) (companyIds : List String)
    (stats : RegionalStats) (mode : SelectionMode) (geometry : SelectionGeometry) :
    SelectionState :=
  let historyEntry : SelectionHistoryEntry :=
    { id := "selection_" ++ toString now
      timestamp := now
      companyIds := companyIds
      stats := stats
      mode := mode
      geometry := geometry }
  let h := historyEntry :: s.selectionHistory
  { s with selectionHistory := if h.length > 50 then h.take 50 else h }

/-- removeFromSelectionHistory: filters out the entry with the given id. -/
def removeFromSelectionHistory (s : SelectionState) (historyId : String) :
    SelectionState :=
  { s with selectionHistory := s.selectionHistory.filter fun entry => entry.id != historyId }

/-- restoreSelectionFromHistory: looks the entry up by id and, when found,
replaces the selected set and stats; the history itself is unchanged. -/
def restoreSelectionFromHistory (s : SelectionState) (historyId : String) :
    SelectionState :=
  match s.selectionHistory.find? (fun entry => entry.id == historyId) with
  | some historyEntry =>
      { s with
        selectedCompanies := jsSet historyEntry.companyIds
        selectionStats := some historyEntry.stats }
  | none => s

/-- clearSelectionHistory: empties the history. -/
def clearSelectionHistory (s : SelectionState) : SelectionState :=
  { s with selectionHistory := [] }

/-- The history-touching operations of the selection slice. The add payload
carries the Date.now() value explicitly. -/
inductive HistoryOp where
  | add (now : ℤ) (companyIds : List String) (stats : RegionalStats)
      (mode : SelectionMode) (geometry : SelectionGeometry)
  | remove (historyId : String)
  | restore (historyId : String)
  | clear

/-- Dispatch one history operation. -/
def applyHistoryOp (s : SelectionState) : HistoryOp → SelectionState
  | HistoryOp.add now ids stats mode geometry =>
      addToSelectionHistory s now ids stats mode geometry
  | HistoryOp.remove historyId => removeFromSelectionHistory s historyId
  | HistoryOp.restore historyId => restoreSelectionFromHistory s historyId
  | HistoryOp.clear => clearSelectionHistory s

/-- Run a sequence of history operations from the initial selection state. -/
def runHistoryOps (ops : List HistoryOp) : SelectionState :=
  ops.foldl applyHistoryOp initialSelectionState

/-! ### mapSlice (store/slices/mapSlice.ts) -/

/-- A rational 3D vector for the map slice camera record. -/
structure Vec3Q where
  x : ℚ
  y : ℚ
  z : ℚ
deriving DecidableEq

/-- Viewport bounds record. -/
structure ViewportBounds where
  north : ℚ
  south : ℚ
  east : ℚ
  west : ℚ
deriving DecidableEq

/-- Geographic center record. -/
structure LatLng where
  lat : ℚ
  lng : ℚ
deriving DecidableEq

/-- The camera record held in the map slice. -/
structure CameraQ where
  position : Vec3Q
  zoom : ℚ
  target : Vec3Q
deriving DecidableEq

/-- The viewport record held in the map slice. -/
structure Viewport where
  bounds : ViewportBounds
  center : LatLng
  zoomLevel : ℚ
deriving DecidableEq

/-- The performance mode union type. -/
inductive PerformanceMode where
  | high
  | medium
  | low
deriving DecidableEq

/-- MapState from types/state.ts. -/
structure MapState where
  camera : CameraQ
  viewport : Viewport
  selectionMode : SelectionMode
  selectionGeometry : Option SelectionGeometry
  lodLevel : ℚ
  performanceMode : PerformanceMode

/-- mapSlice.setSelectionMode: stores the new mode and clears the selection
geometry exactly when the new mode is pan. -/
def setSelectionMode (s : MapState) (payload : SelectionMode) : MapState :=
  let s1 := { s with selectionMode := payload }
  if payload = SelectionMode.pan then { s1 with selectionGeometry := none } else s1

/-! ### Region coloring (stateColors.ts) -/

/-- The static state adjacency map, entries in source order. -/
def stateAdjacency : List (String × List String) :=
  [("Alabama", ["Mississippi", "Tennessee", "Georgia", "Florida"]),
   ("Alaska", []),
   ("Arizona", ["California", "Nevada", "Utah", "Colorado", "New Mexico"]),
   ("Arkansas", ["Missouri", "Tennessee", "Mississippi", "Louisiana", "Texas", "Oklahoma"]),
   ("California", ["Oregon", "Nevada", "Arizona"]),
   ("Colorado", ["Wyoming", "Nebraska", "Kansas", "Oklahoma", "New Mexico", "Arizona", "Utah"]),
   ("Connecticut", ["Massachusetts", "Rhode Island", "New York"]),
   ("Delaware", ["Maryland", "Pennsylvania", "New Jersey"]),
   ("Florida", ["Georgia", "Alabama"]),
   ("Georgia", ["Florida", "Alabama", "Tennessee", "North Carolina", "South Carolina"]),
   ("Hawaii", []),
   ("Idaho", ["Montana", "Wyoming", "Utah", "Nevada", "Oregon", "Washington"]),
   ("Illinois", ["Wisconsin", "Indiana", "Kentucky", "Missouri", "Iowa"]),
   ("Indiana", ["Michigan", "Ohio", "Kentucky", "Illinois"]),
   ("Iowa", ["Minnesota", "Wisconsin", "Illinois", "Missouri", "Nebraska", "South Dakota"]),
   ("Kansas", ["Nebraska", "Missouri", "Oklahoma", "Colorado"]),
   ("Kentucky", ["Indiana", "Ohio", "West Virginia", "Virginia", "Tennessee", "Missouri", "Illinois"]),
   ("Louisiana", ["Arkansas", "Mississippi", "Texas"]),
   ("Maine", ["New Hampshire"]),
   ("Maryland", ["Delaware", "Pennsylvania", "West Virginia", "Virginia"]),
   ("Massachusetts", ["Rhode Island", "Connecticut", "New York", "Vermont", "New Hampshire"]),
   ("Michigan", ["Ohio", "Indiana", "Wisconsin"]),
   ("Minnesota", ["Wisconsin", "Iowa", "South Dakota", "North Dakota"]),
   ("Mississippi", ["Louisiana", "Arkansas", "Tennessee", "Alabama"]),
   ("Missouri", ["Iowa", "Illinois", "Kentucky", "Tennessee", "Arkansas", "Oklahoma", "Kansas", "Nebraska"]),
   ("Montana", ["North Dakota", "South Dakota", "Wyoming", "Idaho"]),
   ("Nebraska", ["South Dakota", "Iowa", "Missouri", "Kansas", "Colorado", "Wyoming"]),
   ("Nevada", ["Idaho", "Utah", "Arizona", "California", "Oregon"]),
   ("New Hampshire", ["Maine", "Massachusetts", "Vermont"]),
   ("New Jersey", ["New York", "Pennsylvania", "Delaware"]),
   ("New Mexico", ["Colorado", "Oklahoma", "Texas", "Arizona"]),
   ("New York", ["Vermont", "Massachusetts", "Connecticut", "New Jersey", "Pennsylvania"]),
   ("North Carolina", ["Virginia", "Tennessee", "Georgia", "South Carolina"]),
   ("North Dakota", ["Minnesota", "South Dakota", "Montana"]),
   ("Ohio", ["Pennsylvania", "West Virginia", "Kentucky", "Indiana", "Michigan"]),
   ("Oklahoma", ["Kansas", "Missouri", "Arkansas", "Texas", "New Mexico", "Colorado"]),
   ("Oregon", ["Washington", "Idaho", "Nevada", "California"]),
   ("Pennsylvania", ["New York", "New Jersey", "Delaware", "Maryland", "West Virginia", "Ohio"]),
   ("Rhode Island", ["Connecticut", "Massachusetts"]),
   ("South Carolina", ["North Carolina", "Georgia"]),
   ("South Dakota", ["North Dakota", "Minnesota", "Iowa", "Nebraska", "Wyoming", "Montana"]),
   ("Tennessee", ["Kentucky", "Virginia", "North Carolina", "Georgia", "Alabama", "Mississippi", "Arkansas", "Missouri"]),
   ("Texas", ["New Mexico", "Oklahoma", "Arkansas", "Louisiana"]),
   ("Utah", ["Idaho", "Wyoming", "Colorado", "Arizona", "Nevada"]),
   ("Vermont", ["New York", "New Hampshire", "Massachusetts"]),
   ("Virginia", ["Maryland", "West Virginia", "Kentucky", "Tennessee", "North Carolina"]),
   ("Washington", ["Idaho", "Oregon"]),
   ("West Virginia", ["Pennsylvania", "Maryland", "Virginia", "Kentucky", "Ohio"]),
   ("Wisconsin", ["Michigan", "Minnesota", "Iowa", "Illinois"]),
   ("Wyoming", ["Montana", "South Dakota", "Nebraska", "Colorado", "Utah", "Idaho"])]

/-- The fixed ten-color palette. -/
def stateColorPalette : List ℕ :=
  [0x3b82f6, 0xef4444, 0x10b981, 0xf59e0b, 0x8b5cf6,
   0x06b6d4, 0xf97316, 0xec4899, 0x6366f1, 0x84cc16]

/-- Key lookup in the adjacency record. -/
def adjacencyOf (stateName : String) : Option (List String) :=
  (stateAdjacency.find? fun p => p.1 == stateName).map fun p => p.2

/-- stateAdjacency[a]?.length || 0, as used by the sort comparator. -/
def neighborCountOf (stateName : String) : ℕ :=
  ((adjacencyOf stateName).map List.length).getD 0

/-- Stable insertion of one element: the element goes after every existing
element that may precede it under `le`, so equal keys keep their relative
order. -/
def insertStable (le : String → String → Bool) (a : String) :
    List String → List String
  | [] => [a]
  | b :: l => if le b a then b :: insertStable le a l else a :: b :: l

/-- The ES2019 Array.prototype.sort contract for a consistent comparator: a
stable sort. Modelled by left-to-right stable insertion, which produces the
unique stably sorted permutation. -/
def jsStableSort (le : String → String → Bool) (l : List String) : List String :=
  l.foldl (fun acc a => insertStable le a acc) []

/-- The sort of assignStateColors: descending neighbor count, ties kept in
input order (comparator (a, b) => bNeighbors - aNeighbors). -/
def sortedStates (states : List String) : List String :=
  jsStableSort (fun a b => decide (neighborCountOf b ≤ neighborCountOf a)) states

/-- Body of the while loop searching the first color index not used by any
neighbor: increments while the index is used and below the palette length.
The fuel (palette length + 1) can never be exhausted because the guard fails
once the index reaches the palette length. -/
def firstAvailableColorAux (usedColors : List ℕ) : ℕ → ℕ → ℕ
  | 0, colorIndex => colorIndex
  | fuel + 1, colorIndex =>
      if usedColors.contains colorIndex ∧ colorIndex < stateColorPalette.length then
        firstAvailableColorAux usedColors fuel (colorIndex + 1)
      else colorIndex

/-- The while loop of assignStateColors, started at index 0. -/
def firstAvailableColor (usedColors : List ℕ) : ℕ :=
  firstAvailableColorAux usedColors (stateColorPalette.length + 1) 0

/-- The forEach of assignStateColors: for each state in sorted order, collect
the colors already assigned to its neighbors, pick the first available index,
and store it modulo the palette length. The color record is modelled as a
function from names to optional indices. -/
def assignStatesLoop : List String → (String → Option ℕ) → (String → Option ℕ)
  | [], stateColorMap => stateColorMap
  | stateName :: rest, stateColorMap =>
      let neighbors := (adjacencyOf stateName).getD []
      let usedColors := neighbors.filterMap stateColorMap
      let colorIndex := firstAvailableColor usedColors
      assignStatesLoop rest fun t =>
        if t = stateName then some (colorIndex % stateColorPalette.length)
        else stateColorMap t

/-- assignStateColors: resets the color map and greedily colors the given
states sorted by descending neighbor count. -/
def assignStateColors (states : List String) : String → Option ℕ :=
  assignStatesLoop (sortedStates states) (fun _ => none)

/-- Wrap an integer into the signed 32 bit range, as JS ToInt32 does. -/
def jsToInt32 (n : ℤ) : ℤ := (n + 2 ^ 31) % 2 ^ 32 - 2 ^ 31

/-- The hash reduce in getStateColor: acc becomes charCode + ((acc << 5) - acc),
where << first converts acc to a signed 32 bit integer and keeps the low 32
bits of the shift. -/
def nameHash (stateName : String) : ℤ :=
  stateName.data.foldl
    (fun acc c => (c.toNat : ℤ) + (jsToInt32 (jsToInt32 acc * 32) - acc)) 0

/-- Math.abs(hash % paletteLength): JS % truncates toward zero, so this is the
absolute value of the truncated remainder. -/
def hashPaletteIndex (stateName : String) : ℕ :=
  ((nameHash stateName).tmod (stateColorPalette.length : ℤ)).natAbs

/-- getStateColor: palette color of the assigned index when the name is in the
color map, otherwise the palette color at the hash-derived index. Out of range
indices never occur; getD 0 stands for the JS undefined access. -/
def getStateColor (stateColorMap : String → Option ℕ) (stateName : String) : ℕ :=
  match stateColorMap stateName with
  | none => stateColorPalette.getD (hashPaletteIndex stateName) 0
  | some idx => stateColorPalette.getD idx 0

/-! ### Camera: pan, zoom and unprojection (useThreeJS.ts)

The scene camera is a three.js OrthographicCamera created with frustum size
1000, near 0.1, far 1000, placed at (0, 50, 0) looking at the origin; pan and
zoom mutate only position.x, position.z and zoom, so its orientation is the
one computed once by lookAt. Real numbers model the JS doubles exactly on the
algebraic operations involved; Math.sqrt is Real.sqrt. -/

/-- A real 3D vector (three.js Vector3). -/
structure Vec3 where
  x : ℝ
  y : ℝ
  z : ℝ

/-- Vector3.length: Euclidean norm. -/
noncomputable def norm3 (v : Vec3) : ℝ :=
  Real.sqrt (v.x * v.x + v.y * v.y + v.z * v.z)

/-- Vector3.normalize: divide each component by the norm. -/
noncomputable def normalize3 (v : Vec3) : Vec3 :=
  ⟨v.x / norm3 v, v.y / norm3 v, v.z / norm3 v⟩

/-- Vector3.cross. -/
noncomputable def cross3 (a b : Vec3) : Vec3 :=
  ⟨a.y * b.z - a.z * b.y, a.z * b.x - a.x * b.z, a.x * b.y - a.y * b.x⟩

/-- Vector3.add. -/
noncomputable def add3 (a b : Vec3) : Vec3 := ⟨a.x + b.x, a.y + b.y, a.z + b.z⟩

/-- Vector3.sub. -/
noncomputable def sub3 (a b : Vec3) : Vec3 := ⟨a.x - b.x, a.y - b.y, a.z - b.z⟩

/-- Vector3.multiplyScalar. -/
noncomputable def smul3 (t : ℝ) (v : Vec3) : Vec3 := ⟨t * v.x, t * v.y, t * v.z⟩

/-- CONFIG.MIN_ZOOM. -/
noncomputable def MIN_ZOOM : ℝ := 0.8

/-- CONFIG.MAX_ZOOM. -/
noncomputable def MAX_ZOOM : ℝ := 250

/-- CONFIG.MAX_PAN_DISTANCE. -/
noncomputable def MAX_PAN_DISTANCE : ℝ := 2000

/-- The frustum size used when the orthographic camera is constructed. -/
noncomputable def frustumSize : ℝ := 1000

/-- The near plane of the orthographic camera. -/
noncomputable def cameraNear : ℝ := 0.1

/-- The far plane of the orthographic camera. -/
noncomputable def cameraFar : ℝ := 1000

/-- View-space z axis produced by three.js Matrix4.lookAt for eye (0, 50, 0),
target the origin and up (0, 1, 0): the first cross product up x z degenerates
(z = up), so the algorithm adds 0.0001 to the z component of the view axis and
normalizes again. -/
noncomputable def camAxisZ : Vec3 := normalize3 ⟨0, 1, 1 / 10000⟩

/-- View-space x axis: normalized cross product of up with the perturbed view
axis. -/
noncomputable def camAxisX : Vec3 := normalize3 (cross3 ⟨0, 1, 0⟩ camAxisZ)

/-- View-space y axis: cross product of the z and x axes. -/
noncomputable def camAxisY : Vec3 := cross3 camAxisZ camAxisX

/-- Application of the camera rotation matrix (columns camAxisX, camAxisY,
camAxisZ) to a view-space vector. -/
noncomputable def rotApply (v : Vec3) : Vec3 :=
  add3 (add3 (smul3 v.x camAxisX) (smul3 v.y camAxisY)) (smul3 v.z camAxisZ)

/-- The mutable camera state touched by handlePan and handleZoom: position
(y stays at its initial 50) and zoom. -/
structure Camera where
  position : Vec3
  zoom : ℝ

/-- The camera as initialized in initScene: position (0, 50, 0), zoom 1. -/
noncomputable def defaultCamera : Camera := ⟨⟨0, 50, 0⟩, 1⟩

/-- THREE.MathUtils.clamp(value, min, max) = Math.max(min, Math.min(max, value)). -/
noncomputable def clampR (value minv maxv : ℝ) : ℝ := max minv (min maxv value)

/-- Inverse orthographic projection: maps normalized device coordinates to
view space. updateProjectionMatrix scales the symmetric frustum half-extents
by 1 / zoom; ndc z is mapped linearly from [-1, 1] to [-near, -far]. -/
noncomputable def ndcToCamera (zoom aspect nx ny nz : ℝ) : Vec3 :=
  ⟨nx * (frustumSize * aspect / 2) / zoom,
   ny * (frustumSize / 2) / zoom,
   -((nz * (cameraFar - cameraNear) + (cameraFar + cameraNear)) / 2)⟩

/-- unprojectScreenCoords: lifts the screen point to ndc (z = 0.5), unprojects
it through the camera (projection inverse then world matrix), and intersects
the ray from the camera position through that point with the ground plane. -/
noncomputable def unprojectScreenCoords (cam : Camera) (width height screenX screenY : ℝ) :
    Vec3 :=
  let nx := (screenX / width) * 2 - 1
  let ny := -(screenY / height) * 2 + 1
  let vec := add3 cam.position (rotApply (ndcToCamera cam.zoom (width / height) nx ny (1 / 2)))
  let dir := normalize3 (sub3 vec cam.position)
  let distance := -cam.position.y / dir.y
  add3 cam.position (smul3 distance dir)

/-- handlePan: moves position.x and position.z by the deltas scaled by
2.5 / zoom; if the new distance from the origin exceeds MAX_PAN_DISTANCE the
movement is scaled down onto the bound instead of being rejected. -/
noncomputable def handlePan (cam : Camera) (deltaX deltaY : ℝ) : Camera :=
  let panSpeed := 2.5 / cam.zoom
  let newX := cam.position.x - deltaX * panSpeed
  let newZ := cam.position.z - deltaY * panSpeed
  let distanceFromCenter := Real.sqrt (newX * newX + newZ * newZ)
  if distanceFromCenter ≤ MAX_PAN_DISTANCE then
    ⟨⟨newX, cam.position.y, newZ⟩, cam.zoom⟩
  else
    let scale := MAX_PAN_DISTANCE / distanceFromCenter
    ⟨⟨newX * scale, cam.position.y, newZ * scale⟩, cam.zoom⟩

/-- handleZoom: unprojects the mouse anchor, clamps the multiplicatively
updated zoom, unprojects the anchor again, and translates position.x and
position.z by the difference of the two unprojections. -/
noncomputable def handleZoom (cam : Camera) (width height delta mouseX mouseY : ℝ) :
    Camera :=
  let worldPosBefore := unprojectScreenCoords cam width height mouseX mouseY
  let newZoom := clampR (cam.zoom + delta * cam.zoom * 0.5) MIN_ZOOM MAX_ZOOM
  let cam2 : Camera := ⟨cam.position, newZoom⟩
  let worldPosAfter := unprojectScreenCoords cam2 width height mouseX mouseY
  let dx := worldPosAfter.x - worldPosBefore.x
  let dz := worldPosAfter.z - worldPosBefore.z
  ⟨⟨cam2.position.x + dx, cam2.position.y, cam2.position.z + dz⟩, newZoom⟩

/-- A pan or zoom interaction. -/
inductive CamOp where
  | pan (deltaX deltaY : ℝ)
  | zoom (delta mouseX mouseY : ℝ)

/-- Holds exactly for pan operations. -/
def CamOp.isPan : CamOp → Prop
  | CamOp.pan _ _ => True
  | CamOp.zoom _ _ _ => False

/-- Dispatch one camera operation (the container size is fixed for the
sequence). -/
noncomputable def applyCamOp (width height : ℝ) (cam : Camera) : CamOp → Camera
  | CamOp.pan dx dy => handlePan cam dx dy
  | CamOp.zoom d mx my => handleZoom cam width height d mx my

/-- Run a sequence of camera operations from the default camera. -/
noncomputable def runCamOps (width height : ℝ) (ops : List CamOp) : Camera :=
  ops.foldl (applyCamOp width height) defaultCamera

/-- Ground-plane distance of the camera position from the origin. -/
noncomputable def groundDistance (cam : Camera) : ℝ :=
  Real.sqrt (cam.position.x ^ 2 + cam.position.z ^ 2)

/-- Specification predicate for the region coloring claims: under a color
assignment, no two distinct states that list each other as neighbors in the
adjacency map carry the same color index. -/
def ProperColoring (m : String → Option ℕ) : Prop :=
  ∀ s t cs ct, s ≠ t → t ∈ (adjacencyOf s).getD [] → s ∈ (adjacencyOf t).getD [] →
    m s = some cs → m t = some ct → cs ≠ ct

/-! ## Theorems -/

/-! ### Spatial worker claims -/

/-- C1: a projected point is kept by selectInRectangle exactly when its x lies
in [min.x, max.x] and its z lies in [min.y, max.y], all four bounds
inclusive, for every input list. -/
theorem selectInRectangle_mem_iff (min max : Point2D) (allCoords : List CompanyPoint)
    (p : CompanyPoint) (hp : p ∈ allCoords) :
    p ∈ selectInRectangle min max allCoords ↔
      (min.x ≤ p.x ∧ p.x ≤ max.x ∧ min.y ≤ p.z ∧ p.z ≤ max.y) := by
  simp [selectInRectangle, List.mem_filter, hp]

/-- Witness for C1: the point (1, 0, 2) lies in the rectangle with corners
(0, 0) and (5, 5). -/
theorem selectInRectangle_mem_iff_witness :
    (⟨"A", 1, 0, 2⟩ : CompanyPoint) ∈ [(⟨"A", 1, 0, 2⟩ : CompanyPoint)] ∧
      ((⟨"A", 1, 0, 2⟩ : CompanyPoint) ∈
          selectInRectangle ⟨0, 0⟩ ⟨5, 5⟩ [(⟨"A", 1, 0, 2⟩ : CompanyPoint)] ↔
        ((0 : ℚ) ≤ 1 ∧ (1 : ℚ) ≤ 5 ∧ (0 : ℚ) ≤ 2 ∧ (2 : ℚ) ≤ 5)) :=
  ⟨by simp, selectInRectangle_mem_iff ⟨0, 0⟩ ⟨5, 5⟩ _ _ (by simp)⟩

/-- C2: for a nonnegative radius, a projected point is kept by selectInCircle
exactly when its Euclidean distance to the center is at most the radius,
boundary inclusive; the squared-distance comparison is exact. -/
theorem selectInCircle_mem_iff_dist (center : Point2D) (radius : ℚ)
    (allCoords : List CompanyPoint) (p : CompanyPoint)
    (hp : p ∈ allCoords) (hr : 0 ≤ radius) :
    p ∈ selectInCircle center radius allCoords ↔
      Real.sqrt (((p.x : ℝ) - (center.x : ℝ)) ^ 2 + ((p.z : ℝ) - (center.y : ℝ)) ^ 2)
        ≤ (radius : ℝ) := by
  have h1 : p ∈ selectInCircle center radius allCoords ↔
      (p.x - center.x) * (p.x - center.x) + (p.z - center.y) * (p.z - center.y)
        ≤ radius * radius := by
    simp [selectInCircle, List.mem_filter, hp]
  rw [h1, Real.sqrt_le_iff]
  constructor
  · intro h
    refine ⟨by exact_mod_cast hr, ?_⟩
    have hc : (((p.x : ℝ) - (center.x : ℝ)) * ((p.x : ℝ) - (center.x : ℝ)) +
        ((p.z : ℝ) - (center.y : ℝ)) * ((p.z : ℝ) - (center.y : ℝ)) ≤
          (radius : ℝ) * (radius : ℝ)) := by exact_mod_cast h
    nlinarith [hc]
  · rintro ⟨-, h⟩
    have hc : ((p.x : ℚ) - center.x) * ((p.x : ℚ) - center.x) +
        ((p.z : ℚ) - center.y) * ((p.z : ℚ) - center.y) ≤ radius * radius := by
      have h2 : (((p.x : ℝ) - (center.x : ℝ)) * ((p.x : ℝ) - (center.x : ℝ)) +
          ((p.z : ℝ) - (center.y : ℝ)) * ((p.z : ℝ) - (center.y : ℝ)) ≤
            (radius : ℝ) * (radius : ℝ)) := by nlinarith [h]
      exact_mod_cast h2
    exact hc

/-- Witness for C2: the boundary case of a zero-radius circle centered exactly
on a projected point includes that point. -/
theorem selectInCircle_mem_iff_dist_witness :
    ((⟨"A", 3, 0, 4⟩ : CompanyPoint) ∈ [(⟨"A", 3, 0, 4⟩ : CompanyPoint)] ∧ (0 : ℚ) ≤ 0) ∧
      ((⟨"A", 3, 0, 4⟩ : CompanyPoint) ∈
          selectInCircle ⟨3, 4⟩ 0 [(⟨"A", 3, 0, 4⟩ : CompanyPoint)] ↔
        Real.sqrt ((((3 : ℚ) : ℝ) - ((3 : ℚ) : ℝ)) ^ 2 +
            (((4 : ℚ) : ℝ) - ((4 : ℚ) : ℝ)) ^ 2) ≤ ((0 : ℚ) : ℝ)) :=
  ⟨⟨by simp, le_refl 0⟩,
    selectInCircle_mem_iff_dist ⟨3, 4⟩ 0 _ _ (by simp) (le_refl 0)⟩

/-- C3: a polygon with fewer than three vertices selects nothing, for every
input list, and no error occurs (the function is total). -/
theorem selectInPolygon_degenerate (polygonPoints : List Point2D)
    (allCoords : List CompanyPoint) (h : polygonPoints.length < 3) :
    selectInPolygon polygonPoints allCoords = [] := by
  simp [selectInPolygon, h]

/-- Witness for C3: a two-vertex polygon selects nothing. -/
theorem selectInPolygon_degenerate_witness :
    ([(⟨0, 0⟩ : Point2D), ⟨1, 1⟩] : List Point2D).length < 3 ∧
      selectInPolygon [(⟨0, 0⟩ : Point2D), ⟨1, 1⟩] [(⟨"A", 0, 0, 0⟩ : CompanyPoint)] = [] :=
  ⟨by simp, selectInPolygon_degenerate _ _ (by simp)⟩

/-- C8 counterexample: a circle query with radius -1 through the worker path
does not return the empty set when a point lies at the center, because the
code compares squared distance against radius * radius = 1. -/
theorem selectInCircle_negative_radius_counterexample :
    managerSelectInCircle true ⟨0, 0⟩ (-1) [(⟨"A", 0, 0, 0⟩ : CompanyPoint)] =
        [(⟨"A", 0, 0, 0⟩ : CompanyPoint)] ∧
      managerSelectInCircle true ⟨0, 0⟩ (-1) [(⟨"A", 0, 0, 0⟩ : CompanyPoint)] ≠ [] := by
  constructor
  · simp [managerSelectInCircle, selectInCircle]
  · simp [managerSelectInCircle, selectInCircle]

/-- C8 amended: a negative radius is not treated as empty-selection; since the
test compares squared distance with radius * radius, a circle query with any
radius r selects exactly the points within distance abs r of the center (and
never throws, the function being total). -/
theorem selectInCircle_mem_iff_abs (center : Point2D) (radius : ℚ)
    (allCoords : List CompanyPoint) (p : CompanyPoint) (hp : p ∈ allCoords) :
    p ∈ selectInCircle center radius allCoords ↔
      Real.sqrt (((p.x : ℝ) - (center.x : ℝ)) ^ 2 + ((p.z : ℝ) - (center.y : ℝ)) ^ 2)
        ≤ |(radius : ℝ)| := by
  have h1 : p ∈ selectInCircle center radius allCoords ↔
      (p.x - center.x) * (p.x - center.x) + (p.z - center.y) * (p.z - center.y)
        ≤ radius * radius := by
    simp [selectInCircle, List.mem_filter, hp]
  rw [h1, Real.sqrt_le_iff]
  constructor
  · intro h
    refine ⟨abs_nonneg _, ?_⟩
    have hc : (((p.x : ℝ) - (center.x : ℝ)) * ((p.x : ℝ) - (center.x : ℝ)) +
        ((p.z : ℝ) - (center.y : ℝ)) * ((p.z : ℝ) - (center.y : ℝ)) ≤
          (radius : ℝ) * (radius : ℝ)) := by exact_mod_cast h
    rw [sq_abs]
    nlinarith [hc]
  · rintro ⟨-, h⟩
    rw [sq_abs] at h
    have h2 : (((p.x : ℝ) - (center.x : ℝ)) * ((p.x : ℝ) - (center.x : ℝ)) +
        ((p.z : ℝ) - (center.y : ℝ)) * ((p.z : ℝ) - (center.y : ℝ)) ≤
          (radius : ℝ) * (radius : ℝ)) := by nlinarith [h]
    exact_mod_cast h2

/-- Witness for C8 amended: with radius -1 the point at distance 1 from the
center is on the boundary and selected. -/
theorem selectInCircle_mem_iff_abs_witness :
    (⟨"A", 1, 0, 0⟩ : CompanyPoint) ∈ [(⟨"A", 1, 0, 0⟩ : CompanyPoint)] ∧
      ((⟨"A", 1, 0, 0⟩ : CompanyPoint) ∈
          selectInCircle ⟨0, 0⟩ (-1) [(⟨"A", 1, 0, 0⟩ : CompanyPoint)] ↔
        Real.sqrt ((((1 : ℚ) : ℝ) - ((0 : ℚ) : ℝ)) ^ 2 +
            (((0 : ℚ) : ℝ) - ((0 : ℚ) : ℝ)) ^ 2) ≤ |((-1 : ℚ) : ℝ)|) :=
  ⟨by simp, selectInCircle_mem_iff_abs ⟨0, 0⟩ (-1) _ _ (by simp)⟩

/-! ### Selection history claims -/

/-- Each single history operation keeps the history length at most 50. -/
lemma applyHistoryOp_length_le (s : SelectionState) (op : HistoryOp)
    (h : s.selectionHistory.length ≤ 50) :
    (applyHistoryOp s op).selectionHistory.length ≤ 50 := by
  cases op with
  | add now ids stats mode geometry =>
      simp only [applyHistoryOp, addToSelectionHistory]
      split
      · simp [List.length_take]
      · next hgt =>
          simp only [List.length_cons, gt_iff_lt, not_lt] at hgt ⊢
          omega
  | remove historyId =>
      simpa only [applyHistoryOp, removeFromSelectionHistory] using
        le_trans (List.length_filter_le _ _) h
  | restore historyId =>
      simp only [applyHistoryOp, restoreSelectionFromHistory]
      split <;> simpa
  | clear =>
      simp [applyHistoryOp, clearSelectionHistory]

/-- The fold of history operations keeps the bound from any admissible start. -/
lemma runHistoryOps_length_le (l : List HistoryOp) (s : SelectionState)
    (h : s.selectionHistory.length ≤ 50) :
    (l.foldl applyHistoryOp s).selectionHistory.length ≤ 50 := by
  induction l generalizing s with
  | nil => simpa using h
  | cons op rest ih => exact ih _ (applyHistoryOp_length_le s op h)

/-- C6: after any sequence of add, remove, restore and clear operations the
selection history holds at most 50 entries; and adding an entry to a history
that already holds exactly 50 keeps the new entry and the 49 most recent old
entries, evicting exactly the oldest (the resulting history is the unshifted
list without its last element, and has length 50 again). -/
theorem selectionHistory_capacity_and_eviction :
    (∀ ops : List HistoryOp, (runHistoryOps ops).selectionHistory.length ≤ 50) ∧
    (∀ (s : SelectionState) (now : ℤ) (ids : List String) (stats : RegionalStats)
        (mode : SelectionMode) (geometry : SelectionGeometry),
      s.selectionHistory.length = 50 →
      (addToSelectionHistory s now ids stats mode geometry).selectionHistory =
          (({ id := "selection_" ++ toString now, timestamp := now, companyIds := ids,
              stats := stats, mode := mode, geometry := geometry } :
            SelectionHistoryEntry) :: s.selectionHistory).dropLast ∧
        (addToSelectionHistory s now ids stats mode geometry).selectionHistory.length
          = 50) := by
  constructor
  · intro ops
    exact runHistoryOps_length_le ops initialSelectionState (by simp [initialSelectionState])
  · intro s now ids stats mode geometry h50
    constructor
    · simp only [addToSelectionHistory]
      rw [if_pos (by simp [h50])]
      rw [List.dropLast_eq_take]
      simp [h50]
    · simp only [addToSelectionHistory]
      rw [if_pos (by simp [h50])]
      simp [List.length_take, h50]

/-- Witness for C6: a concrete run, and eviction from a concrete 50-entry
history. -/
theorem selectionHistory_capacity_and_eviction_witness :
    ((runHistoryOps [HistoryOp.clear]).selectionHistory.length ≤ 50) ∧
      (({ selectedCompanies := [], selectionStats := none,
          selectionHistory := List.replicate 50
            ⟨"selection_0", 0, [], ⟨"r", 0, none, none, none⟩, SelectionMode.pan,
              { type := SelectionMode.pan }⟩,
          isSelecting := false, selectionMode := SelectionMode.pan } :
            SelectionState).selectionHistory.length = 50) ∧
      ((addToSelectionHistory
          { selectedCompanies := [], selectionStats := none,
            selectionHistory := List.replicate 50
              ⟨"selection_0", 0, [], ⟨"r", 0, none, none, none⟩, SelectionMode.pan,
                { type := SelectionMode.pan }⟩,
            isSelecting := false, selectionMode := SelectionMode.pan }
          1 [] ⟨"r", 0, none, none, none⟩ SelectionMode.rect
          { type := SelectionMode.rect }).selectionHistory =
        (({ id := "selection_" ++ toString (1 : ℤ), timestamp := 1, companyIds := [],
            stats := ⟨"r", 0, none, none, none⟩, mode := SelectionMode.rect,
            geometry := { type := SelectionMode.rect } } :
          SelectionHistoryEntry) :: List.replicate 50
            ⟨"selection_0", 0, [], ⟨"r", 0, none, none, none⟩, SelectionMode.pan,
              { type := SelectionMode.pan }⟩).dropLast ∧
        (addToSelectionHistory
          { selectedCompanies := [], selectionStats := none,
            selectionHistory := List.replicate 50
              ⟨"selection_0", 0, [], ⟨"r", 0, none, none, none⟩, SelectionMode.pan,
                { type := SelectionMode.pan }⟩,
            isSelecting := false, selectionMode := SelectionMode.pan }
          1 [] ⟨"r", 0, none, none, none⟩ SelectionMode.rect
          { type := SelectionMode.rect }).selectionHistory.length = 50) :=
  ⟨selectionHistory_capacity_and_eviction.1 [HistoryOp.clear], by simp,
    selectionHistory_capacity_and_eviction.2 _ 1 [] ⟨"r", 0, none, none, none⟩
      SelectionMode.rect { type := SelectionMode.rect } (by simp)⟩

/-! ### Map slice claim -/

/-- C10: setSelectionMode always stores the new mode, clears the selection
geometry exactly when the new mode is pan (leaving it unchanged otherwise),
and leaves camera, viewport, lodLevel and performanceMode unchanged. -/
theorem setSelectionMode_frame (s : MapState) (payload : SelectionMode) :
    (setSelectionMode s payload).selectionMode = payload ∧
    (setSelectionMode s payload).selectionGeometry =
      (if payload = SelectionMode.pan then none else s.selectionGeometry) ∧
    (setSelectionMode s payload).camera = s.camera ∧
    (setSelectionMode s payload).viewport = s.viewport ∧
    (setSelectionMode s payload).lodLevel = s.lodLevel ∧
    (setSelectionMode s payload).performanceMode = s.performanceMode := by
  by_cases h : payload = SelectionMode.pan <;> simp [setSelectionMode, h]

/-! ### Region coloring claims -/

/-- The while-loop search, given enough fuel, returns either an index that is
not in use or an index of at least 10; every index below the returned one is
in use. -/
lemma firstAvailableColorAux_spec (usedColors : List ℕ) :
    ∀ (fuel c : ℕ), 11 ≤ c + fuel → (∀ k, k < c → k ∈ usedColors) →
      ((firstAvailableColorAux usedColors fuel c ∉ usedColors ∨
          10 ≤ firstAvailableColorAux usedColors fuel c) ∧
        ∀ k, k < firstAvailableColorAux usedColors fuel c → k ∈ usedColors) := by
  intro fuel
  induction fuel with
  | zero =>
      intro c hc hinv
      exact ⟨Or.inr (by simpa [firstAvailableColorAux] using by omega), by
        simpa [firstAvailableColorAux] using hinv⟩
  | succ fuel ih =>
      intro c hc hinv
      rw [firstAvailableColorAux]
      split
      · next hcond =>
          have hmem : c ∈ usedColors := List.mem_of_elem_eq_true hcond.1
          refine ih (c + 1) (by omega) ?_
          intro k hk
          rcases Nat.lt_succ_iff_lt_or_eq.mp hk with h | h
          · exact hinv k h
          · exact h ▸ hmem
      · next hcond =>
          refine ⟨?_, hinv⟩
          by_cases hmem : c ∈ usedColors
          · have h1 : usedColors.contains c = true := List.elem_eq_true_of_mem hmem
            have h2 : ¬ c < stateColorPalette.length := fun hlt => hcond ⟨h1, hlt⟩
            rw [show stateColorPalette.length = 10 from rfl] at h2
            exact Or.inr (by omega)
          · exact Or.inl hmem

/-- When at most nine colors are in use, the loop returns an unused index
below the palette size. -/
lemma firstAvailableColor_spec (usedColors : List ℕ) (hlen : usedColors.length ≤ 9) :
    firstAvailableColor usedColors ∉ usedColors ∧ firstAvailableColor usedColors < 10 := by
  have hspec := firstAvailableColorAux_spec usedColors (stateColorPalette.length + 1) 0
    (by rw [show stateColorPalette.length = 10 from rfl]) (fun k hk => absurd hk (by omega))
  rw [show firstAvailableColor usedColors =
      firstAvailableColorAux usedColors (stateColorPalette.length + 1) 0 from rfl]
  by_cases h10 : 10 ≤ firstAvailableColorAux usedColors (stateColorPalette.length + 1) 0
  · exfalso
    have hsub : List.range 10 ⊆ usedColors := by
      intro k hk
      have hk10 := List.mem_range.mp hk
      exact hspec.2 k (by omega)
    have hle := (List.subperm_of_subset (List.nodup_range 10) hsub).length_le
    rw [List.length_range] at hle
    omega
  · exact ⟨hspec.1.resolve_right h10, by omega⟩

/-- Under the palette-size hypothesis, every neighbor list read by the loop
has length at most 9 (states absent from the map read an empty list). -/
lemma neighbors_length_le
    (hdeg : ∀ p ∈ stateAdjacency, p.2.length < stateColorPalette.length)
    (s : String) : ((adjacencyOf s).getD []).length ≤ 9 := by
  unfold adjacencyOf
  cases hfind : stateAdjacency.find? (fun p => p.1 == s) with
  | none => simp
  | some pr =>
      have hr := hdeg pr (List.mem_of_find?_eq_some hfind)
      rw [show stateColorPalette.length = 10 from rfl] at hr
      simpa using by omega

/-- One greedy assignment step preserves properness of the coloring. -/
lemma assignStep_proper (m : String → Option ℕ) (stateName : String)
    (hdeg : ∀ p ∈ stateAdjacency, p.2.length < stateColorPalette.length)
    (hm : ProperColoring m) :
    ProperColoring (fun t =>
      if t = stateName then
        some (firstAvailableColor (((adjacencyOf stateName).getD []).filterMap m) %
          stateColorPalette.length)
      else m t) := by
  have hlen : (((adjacencyOf stateName).getD []).filterMap m).length ≤ 9 :=
    le_trans (List.length_filterMap_le _ _) (neighbors_length_le hdeg stateName)
  obtain ⟨hnotmem, hlt⟩ :=
    firstAvailableColor_spec (((adjacencyOf stateName).getD []).filterMap m) hlen
  have hmod : firstAvailableColor (((adjacencyOf stateName).getD []).filterMap m) %
      stateColorPalette.length =
        firstAvailableColor (((adjacencyOf stateName).getD []).filterMap m) :=
    Nat.mod_eq_of_lt (by rw [show stateColorPalette.length = 10 from rfl]; omega)
  intro s t cs ct hst hadj1 hadj2 hms hmt
  simp only [] at hms hmt
  by_cases hs : s = stateName <;> by_cases ht : t = stateName
  · exact absurd (hs.trans ht.symm) hst
  · subst hs
    rw [if_pos rfl] at hms
    rw [if_neg ht] at hmt
    have hcs : firstAvailableColor (((adjacencyOf s).getD []).filterMap m) = cs := by
      rw [← hmod]
      exact Option.some.inj hms
    have hct : ct ∈ ((adjacencyOf s).getD []).filterMap m :=
      List.mem_filterMap.mpr ⟨t, hadj1, hmt⟩
    intro heq
    exact hnotmem (by rw [hcs, heq]; exact hct)
  · subst ht
    rw [if_neg hs] at hms
    rw [if_pos rfl] at hmt
    have hct : firstAvailableColor (((adjacencyOf t).getD []).filterMap m) = ct := by
      rw [← hmod]
      exact Option.some.inj hmt
    have hcs : cs ∈ ((adjacencyOf t).getD []).filterMap m :=
      List.mem_filterMap.mpr ⟨s, hadj2, hms⟩
    intro heq
    exact hnotmem (by rw [hct, ← heq]; exact hcs)
  · rw [if_neg hs] at hms
    rw [if_neg ht] at hmt
    exact hm s t cs ct hst hadj1 hadj2 hms hmt

/-- The whole greedy loop preserves properness. -/
lemma assignStatesLoop_proper (l : List String) (m : String → Option ℕ)
    (hdeg : ∀ p ∈ stateAdjacency, p.2.length < stateColorPalette.length)
    (hm : ProperColoring m) : ProperColoring (assignStatesLoop l m) := by
  induction l generalizing m with
  | nil => simpa [assignStatesLoop] using hm
  | cons a rest ih =>
      rw [assignStatesLoop]
      exact ih _ (assignStep_proper m a hdeg hm)

/-- Every processed state (and every previously colored one) ends up colored. -/
lemma assignStatesLoop_isSome (l : List String) (m : String → Option ℕ) (s : String)
    (h : s ∈ l ∨ (m s).isSome) : (assignStatesLoop l m s).isSome := by
  induction l generalizing m with
  | nil =>
      rcases h with h | h
      · exact absurd h (by simp)
      · simpa [assignStatesLoop] using h
  | cons a rest ih =>
      rw [assignStatesLoop]
      apply ih
      rcases h with h | h
      · rcases List.mem_cons.mp h with h | h
        · subst h
          exact Or.inr (by simp)
        · exact Or.inl h
      · right
        by_cases hsa : s = a
        · simp [hsa]
        · simpa [hsa] using h

/-- Membership through stable insertion. -/
lemma mem_insertStable (le : String → String → Bool) (a x : String) (l : List String) :
    x ∈ insertStable le a l ↔ x = a ∨ x ∈ l := by
  induction l with
  | nil => simp [insertStable]
  | cons b t ih =>
      rw [insertStable]
      split
      · rw [List.mem_cons, ih, List.mem_cons]
        tauto
      · rw [List.mem_cons, List.mem_cons]

/-- Membership through the stable sort fold. -/
lemma mem_jsStableSort_aux (le : String → String → Bool) (l : List String) :
    ∀ (acc : List String) (x : String),
      x ∈ l.foldl (fun acc a => insertStable le a acc) acc ↔ x ∈ acc ∨ x ∈ l := by
  induction l with
  | nil => simp
  | cons a t ih =>
      intro acc x
      rw [List.foldl_cons, ih, mem_insertStable, List.mem_cons]
      tauto

/-- The sort of assignStateColors permutes the input. -/
lemma mem_sortedStates (states : List String) (x : String) :
    x ∈ sortedStates states ↔ x ∈ states := by
  unfold sortedStates jsStableSort
  rw [mem_jsStableSort_aux]
  simp

/-- C7: for every input list of region names, no two regions in the list that
list each other as adjacent in the adjacency map receive the same color index
from the greedy assignment, provided the palette is larger than every
adjacency degree (both regions do receive colors, and those differ). -/
theorem assignStateColors_no_adjacent_collision (states : List String) (s t : String)
    (hdeg : ∀ p ∈ stateAdjacency, p.2.length < stateColorPalette.length)
    (hs : s ∈ states) (ht : t ∈ states) (hst : s ≠ t)
    (hadj1 : t ∈ (adjacencyOf s).getD []) (hadj2 : s ∈ (adjacencyOf t).getD []) :
    (assignStateColors states s).isSome ∧ (assignStateColors states t).isSome ∧
      assignStateColors states s ≠ assignStateColors states t := by
  have hsome_s : (assignStateColors states s).isSome :=
    assignStatesLoop_isSome _ _ s (Or.inl ((mem_sortedStates states s).mpr hs))
  have hsome_t : (assignStateColors states t).isSome :=
    assignStatesLoop_isSome _ _ t (Or.inl ((mem_sortedStates states t).mpr ht))
  have hproper : ProperColoring (assignStateColors states) := by
    apply assignStatesLoop_proper _ _ hdeg
    intro a b ca cb hab h1 h2 hca hcb
    exact absurd hca (by simp)
  refine ⟨hsome_s, hsome_t, ?_⟩
  obtain ⟨cs, hcs⟩ := Option.isSome_iff_exists.mp hsome_s
  obtain ⟨ct, hct⟩ := Option.isSome_iff_exists.mp hsome_t
  rw [hcs, hct]
  intro heq
  exact hproper s t cs ct hst hadj1 hadj2 hcs hct (Option.some.inj heq)

/-- Witness for C7: Alabama and Mississippi list each other as adjacent and
receive different colors. -/
theorem assignStateColors_no_adjacent_collision_witness :
    ((∀ p ∈ stateAdjacency, p.2.length < stateColorPalette.length) ∧
      "Mississippi" ∈ (adjacencyOf ("Alabama")).getD [] ∧
      "Alabama" ∈ (adjacencyOf ("Mississippi")).getD []) ∧
      ((assignStateColors ["Alabama", "Mississippi"] ("Alabama")).isSome ∧
        (assignStateColors ["Alabama", "Mississippi"] ("Mississippi")).isSome ∧
        assignStateColors ["Alabama", "Mississippi"] ("Alabama") ≠
          assignStateColors ["Alabama", "Mississippi"] ("Mississippi")) :=
  ⟨⟨by decide, by decide, by decide⟩,
    assignStateColors_no_adjacent_collision ["Alabama", "Mississippi"] _ _
      (by decide) (by decide) (by decide) (by decide) (by decide) (by decide)⟩

/-- The hash-derived palette index is always below 10. -/
lemma hashPaletteIndex_lt (stateName : String) : hashPaletteIndex stateName < 10 := by
  unfold hashPaletteIndex
  rw [show ((stateColorPalette.length : ℤ)) = 10 from rfl]
  cases nameHash stateName with
  | ofNat n =>
      simp [Int.tmod]
      omega
  | negSucc n =>
      simp [Int.tmod]
      omega

set_option maxRecDepth 10000 in
/-- C9 counterexample: District of Columbia is absent from the adjacency map,
yet after a color assignment run that included it, its color is the greedy
color, not the hash-derived one. -/
theorem getStateColor_hash_counterexample :
    adjacencyOf ("District of Columbia") = none ∧
      getStateColor (assignStateColors ["District of Columbia"]) ("District of Columbia") ≠
        stateColorPalette.getD (hashPaletteIndex ("District of Columbia")) 0 := by
  constructor
  · decide
  · decide

/-- C9 amended: a region name absent from the current color assignment (for
example, never passed to assignStateColors) receives the palette color at the
stable hash index of its name: the lookup is deterministic across all such
assignments, needs no neighbor information, and always yields a palette
element. -/
theorem getStateColor_unassigned_hash (m1 m2 : String → Option ℕ) (stateName : String)
    (h1 : m1 stateName = none) (h2 : m2 stateName = none) :
    getStateColor m1 stateName = stateColorPalette.getD (hashPaletteIndex stateName) 0 ∧
      getStateColor m1 stateName = getStateColor m2 stateName ∧
      getStateColor m1 stateName ∈ stateColorPalette := by
  have e1 : getStateColor m1 stateName =
      stateColorPalette.getD (hashPaletteIndex stateName) 0 := by
    unfold getStateColor
    rw [h1]
  have e2 : getStateColor m2 stateName =
      stateColorPalette.getD (hashPaletteIndex stateName) 0 := by
    unfold getStateColor
    rw [h2]
  have hlt : hashPaletteIndex stateName < stateColorPalette.length := by
    rw [show stateColorPalette.length = 10 from rfl]
    exact hashPaletteIndex_lt stateName
  refine ⟨e1, e1.trans e2.symm, ?_⟩
  rw [e1, List.getD_eq_getElem _ _ hlt]
  exact List.getElem_mem _

/-- Witness for C9 amended: the empty color map sends District of Columbia to
its hash color. -/
theorem getStateColor_unassigned_hash_witness :
    ((fun _ => (none : Option ℕ)) ("District of Columbia") = none) ∧
      (getStateColor (fun _ => none) ("District of Columbia") =
          stateColorPalette.getD (hashPaletteIndex ("District of Columbia")) 0 ∧
        getStateColor (fun _ => none) ("District of Columbia") =
          getStateColor (fun _ => none) ("District of Columbia") ∧
        getStateColor (fun _ => none) ("District of Columbia") ∈ stateColorPalette) :=
  ⟨rfl, getStateColor_unassigned_hash (fun _ => none) (fun _ => none) _ rfl rfl⟩

/-! ### Camera claims -/

/-- The norm of the perturbed view axis is positive. -/
lemma look_norm_pos : 0 < norm3 ⟨0, 1, 1 / 10000⟩ := by
  unfold norm3
  rw [Real.sqrt_pos]
  norm_num

/-- The z view axis in explicit components. -/
lemma camAxisZ_eq :
    camAxisZ = ⟨0, 1 / norm3 ⟨0, 1, 1 / 10000⟩, (1 / 10000) / norm3 ⟨0, 1, 1 / 10000⟩⟩ := by
  unfold camAxisZ normalize3
  simp

/-- The norm of a vector on the x axis with nonnegative coordinate. -/
lemma norm3_x (a : ℝ) (ha : 0 ≤ a) : norm3 ⟨a, 0, 0⟩ = a := by
  unfold norm3
  dsimp only
  rw [show a * a + (0 : ℝ) * 0 + (0 : ℝ) * 0 = a * a by ring, Real.sqrt_mul_self ha]

/-- The x view axis degenerates to the world x axis. -/
lemma camAxisX_eq : camAxisX = ⟨1, 0, 0⟩ := by
  have hpos : 0 < (1 / 10000 : ℝ) / norm3 ⟨0, 1, 1 / 10000⟩ := by
    have := look_norm_pos
    positivity
  have hcross : cross3 ⟨0, 1, 0⟩
      ⟨0, 1 / norm3 ⟨0, 1, 1 / 10000⟩, (1 / 10000) / norm3 ⟨0, 1, 1 / 10000⟩⟩ =
      ⟨(1 / 10000) / norm3 ⟨0, 1, 1 / 10000⟩, 0, 0⟩ := by
    unfold cross3
    dsimp only
    simp only [Vec3.mk.injEq]
    refine ⟨by ring, by ring, by ring⟩
  unfold camAxisX
  rw [camAxisZ_eq, hcross]
  unfold normalize3
  dsimp only
  rw [norm3_x _ (le_of_lt hpos), div_self (ne_of_gt hpos)]
  simp only [Vec3.mk.injEq]
  norm_num

/-- The y view axis in explicit components. -/
lemma camAxisY_eq :
    camAxisY = ⟨0, (1 / 10000) / norm3 ⟨0, 1, 1 / 10000⟩,
      -(1 / norm3 ⟨0, 1, 1 / 10000⟩)⟩ := by
  unfold camAxisY
  rw [camAxisZ_eq, camAxisX_eq]
  unfold cross3
  dsimp only
  simp only [Vec3.mk.injEq]
  refine ⟨by ring, by ring, by ring⟩

/-- The camera rotation applied to a view-space vector with zero x component. -/
lemma rotApply_vert (cy cz : ℝ) :
    rotApply ⟨0, cy, cz⟩ =
      ⟨0, (cy * (1 / 10000) + cz) / norm3 ⟨0, 1, 1 / 10000⟩,
        (-cy + cz * (1 / 10000)) / norm3 ⟨0, 1, 1 / 10000⟩⟩ := by
  have hN := look_norm_pos
  unfold rotApply
  rw [camAxisZ_eq, camAxisX_eq, camAxisY_eq]
  unfold add3 smul3
  dsimp only
  simp only [Vec3.mk.injEq]
  refine ⟨by ring, ?_, ?_⟩ <;> field_simp <;> ring

/-- The ray-ground intersection in unprojectScreenCoords does not depend on
the normalization of the direction vector. -/
lemma ray_cancel (p v : Vec3) (hy : v.y ≠ 0) :
    add3 p (smul3 (-p.y / (normalize3 v).y) (normalize3 v)) =
      add3 p (smul3 (-p.y / v.y) v) := by
  have hS : 0 < v.x * v.x + v.y * v.y + v.z * v.z := by
    have h1 : 0 < v.y * v.y := mul_self_pos.mpr hy
    nlinarith [mul_self_nonneg v.x, mul_self_nonneg v.z]
  have hN : 0 < norm3 v := by
    unfold norm3
    exact Real.sqrt_pos.mpr hS
  have hNne : norm3 v ≠ 0 := ne_of_gt hN
  unfold normalize3 add3 smul3
  dsimp only
  simp only [Vec3.mk.injEq]
  refine ⟨?_, ?_, ?_⟩ <;> field_simp <;> ring

/-- Adding then subtracting the camera position is the identity. -/
lemma sub3_add3_cancel (p v : Vec3) : sub3 (add3 p v) p = v := by
  unfold add3 sub3
  dsimp only
  cases v
  simp only [Vec3.mk.injEq]
  refine ⟨by ring, by ring, by ring⟩

/-- Evaluation of the unprojection at the screen anchor (500, 0) in a 1000 by
1000 container: the anchor sits on the central vertical screen line, so the
ground point keeps the camera x coordinate, lies on the ground plane, and its
z coordinate is offset by a zoom-dependent amount. -/
lemma unproject_anchor_eval (p : Vec3) (zoom : ℝ) (hz : 4 / 5 ≤ zoom) :
    unprojectScreenCoords ⟨p, zoom⟩ 1000 1000 500 0 =
      ⟨p.x, 0, p.z - p.y * ((-(500 / zoom) + -(30001 / 40) * (1 / 10000)) /
        ((500 / zoom) * (1 / 10000) + -(30001 / 40)))⟩ := by
  have hz0 : (0 : ℝ) < zoom := by linarith
  have hN := look_norm_pos
  have hNne : norm3 ⟨0, 1, 1 / 10000⟩ ≠ 0 := ne_of_gt hN
  have h625 : 500 / zoom ≤ 625 := by
    rw [div_le_iff₀ hz0]
    nlinarith
  have hA : (500 / zoom) * (1 / 10000) + -(30001 / 40) < 0 := by nlinarith
  have hAne : (500 / zoom) * (1 / 10000) + -(30001 / 40) ≠ 0 := ne_of_lt hA
  have hcam : ndcToCamera zoom (1000 / 1000) ((500 / 1000) * 2 - 1) (-(0 / 1000) * 2 + 1)
      (1 / 2) = ⟨0, 500 / zoom, -(30001 / 40)⟩ := by
    unfold ndcToCamera frustumSize cameraNear cameraFar
    simp only [Vec3.mk.injEq]
    norm_num
  have hvy : (⟨0, ((500 / zoom) * (1 / 10000) + -(30001 / 40)) / norm3 ⟨0, 1, 1 / 10000⟩,
      (-(500 / zoom) + -(30001 / 40) * (1 / 10000)) / norm3 ⟨0, 1, 1 / 10000⟩⟩ : Vec3).y ≠ 0 := by
    dsimp only
    exact div_ne_zero hAne hNne
  have hdivN : ∀ a b c : ℝ, b ≠ 0 →
      (a / (b / norm3 ⟨0, 1, 1 / 10000⟩)) * (c / norm3 ⟨0, 1, 1 / 10000⟩) = a * c / b := by
    intro a b c hb
    field_simp
    ring
  unfold unprojectScreenCoords
  dsimp only
  rw [hcam, rotApply_vert, sub3_add3_cancel, ray_cancel _ _ hvy]
  unfold add3 smul3
  dsimp only
  simp only [Vec3.mk.injEq]
  refine ⟨by ring, ?_, ?_⟩
  · rw [div_mul_cancel₀ _ (div_ne_zero hAne hNne)]
    ring
  · rw [hdivN _ _ _ hAne]
    field_simp
    ring

/-- Evaluation of handleZoom at the central top anchor with zoom delta 2 from
zoom 1: the new zoom clamps to 2, position x is unchanged, and position z
moves by the difference of the two anchor unprojections. -/
lemma handleZoom_eval (px pz : ℝ) :
    handleZoom ⟨⟨px, 50, pz⟩, 1⟩ 1000 1000 2 500 0 =
      ⟨⟨px, 50, pz + (200030001 / 5999800 - 100030001 / 6000000)⟩, 2⟩ := by
  have hclamp : clampR ((1 : ℝ) + 2 * 1 * 0.5) MIN_ZOOM MAX_ZOOM = 2 := by
    unfold clampR MIN_ZOOM MAX_ZOOM
    rw [min_eq_right (by norm_num), max_eq_right (by norm_num)]
    norm_num
  unfold handleZoom
  dsimp only
  rw [hclamp]
  rw [unproject_anchor_eval ⟨px, 50, pz⟩ 1 (by norm_num),
    unproject_anchor_eval ⟨px, 50, pz⟩ 2 (by norm_num)]
  dsimp only
  simp only [Camera.mk.injEq, Vec3.mk.injEq]
  norm_num

/-- A pan whose unclamped target stays within the bound moves the position to
the unclamped target. -/
lemma handlePan_of_le (cam : Camera) (dx dy : ℝ)
    (h : Real.sqrt ((cam.position.x - dx * (2.5 / cam.zoom)) *
        (cam.position.x - dx * (2.5 / cam.zoom)) +
      (cam.position.z - dy * (2.5 / cam.zoom)) *
        (cam.position.z - dy * (2.5 / cam.zoom))) ≤ MAX_PAN_DISTANCE) :
    handlePan cam dx dy = ⟨⟨cam.position.x - dx * (2.5 / cam.zoom), cam.position.y,
      cam.position.z - dy * (2.5 / cam.zoom)⟩, cam.zoom⟩ := by
  unfold handlePan
  rw [if_pos h]

/-- Every pan lands within the pan bound: an in-bounds target is kept and an
out-of-bounds target is scaled down exactly onto the bound. -/
lemma handlePan_groundDistance_le (cam : Camera) (dx dy : ℝ) :
    groundDistance (handlePan cam dx dy) ≤ MAX_PAN_DISTANCE := by
  unfold handlePan
  dsimp only
  generalize cam.position.x - dx * (2.5 / cam.zoom) = a
  generalize cam.position.z - dy * (2.5 / cam.zoom) = b
  split
  · next h =>
      unfold groundDistance
      dsimp only
      calc Real.sqrt (a ^ 2 + b ^ 2) = Real.sqrt (a * a + b * b) := by ring_nf
        _ ≤ MAX_PAN_DISTANCE := h
  · next h =>
      unfold groundDistance
      dsimp only
      unfold MAX_PAN_DISTANCE at h ⊢
      push_neg at h
      have hS : (0 : ℝ) ≤ a * a + b * b := by
        nlinarith [mul_self_nonneg a, mul_self_nonneg b]
      have hd : (0 : ℝ) < Real.sqrt (a * a + b * b) := lt_trans (by norm_num) h
      have hSpos : (0 : ℝ) < a * a + b * b := Real.sqrt_pos.mp hd
      have hsq : Real.sqrt (a * a + b * b) ^ 2 = a * a + b * b := Real.sq_sqrt hS
      have key : (a * (2000 / Real.sqrt (a * a + b * b))) ^ 2 +
          (b * (2000 / Real.sqrt (a * a + b * b))) ^ 2 = 2000 ^ 2 := by
        have expand : (a * (2000 / Real.sqrt (a * a + b * b))) ^ 2 +
            (b * (2000 / Real.sqrt (a * a + b * b))) ^ 2 =
            (a * a + b * b) * (2000 / Real.sqrt (a * a + b * b)) ^ 2 := by ring
        rw [expand, ← hsq]
        field_simp
      rw [key, Real.sqrt_sq (by norm_num)]

/-- handlePan never changes the zoom. -/
lemma handlePan_zoom (cam : Camera) (dx dy : ℝ) :
    (handlePan cam dx dy).zoom = cam.zoom := by
  unfold handlePan
  dsimp only
  split <;> rfl

/-- handleZoom always clamps the zoom into the configured bounds. -/
lemma handleZoom_zoom_bounds (cam : Camera) (w h d mx my : ℝ) :
    MIN_ZOOM ≤ (handleZoom cam w h d mx my).zoom ∧
      (handleZoom cam w h d mx my).zoom ≤ MAX_ZOOM := by
  unfold handleZoom clampR
  dsimp only
  constructor
  · exact le_max_left _ _
  · exact max_le (by norm_num [MIN_ZOOM, MAX_ZOOM]) (min_le_left _ _)

/-- The zoom clamp invariant holds along any operation sequence. -/
lemma runCamOps_zoom_bounds (w h : ℝ) (ops : List CamOp) :
    MIN_ZOOM ≤ (runCamOps w h ops).zoom ∧ (runCamOps w h ops).zoom ≤ MAX_ZOOM := by
  unfold runCamOps
  have key : ∀ (l : List CamOp) (cam : Camera),
      MIN_ZOOM ≤ cam.zoom → cam.zoom ≤ MAX_ZOOM →
      MIN_ZOOM ≤ (l.foldl (applyCamOp w h) cam).zoom ∧
        (l.foldl (applyCamOp w h) cam).zoom ≤ MAX_ZOOM := by
    intro l
    induction l with
    | nil => intro cam h1 h2; exact ⟨h1, h2⟩
    | cons op rest ih =>
        intro cam h1 h2
        rw [List.foldl_cons]
        cases op with
        | pan dx dy =>
            refine ih _ ?_ ?_ <;> simp only [applyCamOp, handlePan_zoom] <;> assumption
        | zoom d mx my =>
            exact ih _ (handleZoom_zoom_bounds cam w h d mx my).1
              (handleZoom_zoom_bounds cam w h d mx my).2
  exact key ops defaultCamera (by norm_num [defaultCamera, MIN_ZOOM])
    (by norm_num [defaultCamera, MAX_ZOOM])

/-- The pan distance invariant holds along any pan-only operation sequence. -/
lemma runCamOps_pan_only_dist (w h : ℝ) (ops : List CamOp)
    (hops : ∀ op ∈ ops, op.isPan) :
    groundDistance (runCamOps w h ops) ≤ MAX_PAN_DISTANCE := by
  unfold runCamOps
  have key : ∀ (l : List CamOp) (cam : Camera), (∀ op ∈ l, op.isPan) →
      groundDistance cam ≤ MAX_PAN_DISTANCE →
      groundDistance (l.foldl (applyCamOp w h) cam) ≤ MAX_PAN_DISTANCE := by
    intro l
    induction l with
    | nil => intro cam _ hd; simpa using hd
    | cons op rest ih =>
        intro cam hl hd
        rw [List.foldl_cons]
        cases op with
        | pan dx dy =>
            refine ih _ (fun o ho => hl o (List.mem_cons_of_mem _ ho)) ?_
            simp only [applyCamOp]
            exact handlePan_groundDistance_le cam dx dy
        | zoom d mx my =>
            exact absurd (hl _ (List.mem_cons_self _ _)) (by simp [CamOp.isPan])
  apply key ops defaultCamera hops
  unfold groundDistance defaultCamera
  dsimp only
  rw [show (0 : ℝ) ^ 2 + (0 : ℝ) ^ 2 = 0 by norm_num, Real.sqrt_zero]
  norm_num [MAX_PAN_DISTANCE]

/-- C4 counterexample: panning to the boundary and then zooming in at the top
center anchor pushes the camera to ground distance above MAX_PAN_DISTANCE,
because the zoom-to-cursor translation is not clamped. So the distance bound
fails for mixed pan and zoom sequences. -/
theorem pan_zoom_exceeds_bound :
    MAX_PAN_DISTANCE <
      groundDistance (runCamOps 1000 1000 [CamOp.pan 0 (-800), CamOp.zoom 2 500 0]) := by
  have h1 : handlePan defaultCamera 0 (-800) = ⟨⟨0, 50, 2000⟩, 1⟩ := by
    rw [handlePan_of_le]
    · unfold defaultCamera
      dsimp only
      simp only [Camera.mk.injEq, Vec3.mk.injEq]
      norm_num
    · refine Real.sqrt_le_iff.mpr ⟨by norm_num [MAX_PAN_DISTANCE], ?_⟩
      norm_num [defaultCamera, MAX_PAN_DISTANCE]
  have h2 := handleZoom_eval 0 2000
  unfold runCamOps
  rw [List.foldl_cons, List.foldl_cons, List.foldl_nil]
  simp only [applyCamOp]
  rw [h1, h2]
  unfold groundDistance MAX_PAN_DISTANCE
  dsimp only
  rw [Real.lt_sqrt (by norm_num)]
  norm_num

/-- C4 amended: along every sequence of pan and zoom operations the zoom stays
within MIN_ZOOM and MAX_ZOOM; the ground distance of the camera position stays
within MAX_PAN_DISTANCE along every pan-only sequence, and every single pan
call lands within the bound (an overshooting pan is scaled down onto it, not
rejected) — but a zoom call translates the position without clamping, so the
distance bound does not extend to sequences containing zooms. -/
theorem camera_bounds_amended (w h : ℝ) (ops : List CamOp) :
    (MIN_ZOOM ≤ (runCamOps w h ops).zoom ∧ (runCamOps w h ops).zoom ≤ MAX_ZOOM) ∧
      ((∀ op ∈ ops, op.isPan) → groundDistance (runCamOps w h ops) ≤ MAX_PAN_DISTANCE) ∧
      (∀ (cam : Camera) (dx dy : ℝ),
        groundDistance (handlePan cam dx dy) ≤ MAX_PAN_DISTANCE) :=
  ⟨runCamOps_zoom_bounds w h ops,
    fun hops => runCamOps_pan_only_dist w h ops hops,
    fun cam dx dy => handlePan_groundDistance_le cam dx dy⟩

/-- Witness for C4 amended: a single concrete pan respects both bounds. -/
theorem camera_bounds_amended_witness :
    (MIN_ZOOM ≤ (runCamOps 1000 1000 [CamOp.pan 3 4]).zoom ∧
      (runCamOps 1000 1000 [CamOp.pan 3 4]).zoom ≤ MAX_ZOOM) ∧
      groundDistance (runCamOps 1000 1000 [CamOp.pan 3 4]) ≤ MAX_PAN_DISTANCE :=
  ⟨(camera_bounds_amended 1000 1000 [CamOp.pan 3 4]).1,
    (camera_bounds_amended 1000 1000 [CamOp.pan 3 4]).2.1 (by
      intro op hop
      rw [List.mem_singleton] at hop
      subst hop
      trivial)⟩

/-- C5 (code bug): zoom-to-cursor invariance fails. Unprojecting the anchor
(500, 0) of a 1000 by 1000 container before a zoom call and after it yields
different world points, because handleZoom translates the camera position by
the difference after minus before, while keeping the anchored world point
fixed would require the opposite sign. -/
theorem zoom_anchor_not_fixed :
    unprojectScreenCoords (handleZoom defaultCamera 1000 1000 2 500 0) 1000 1000 500 0 ≠
      unprojectScreenCoords defaultCamera 1000 1000 500 0 := by
  rw [show defaultCamera = (⟨⟨0, 50, 0⟩, 1⟩ : Camera) from rfl]
  rw [handleZoom_eval 0 0]
  rw [unproject_anchor_eval ⟨0, 50, 0 + (200030001 / 5999800 - 100030001 / 6000000)⟩ 2
      (by norm_num),
    unproject_anchor_eval ⟨0, 50, 0⟩ 1 (by norm_num)]
  intro heq
  have hz := congrArg Vec3.z heq
  dsimp only at hz
  norm_num at hz

end Voila
